import Mathlib

/-!
Network debug overlay: the sliding-window metric sink.

A shallow embedding of `NetOverlayMetricSink` from
`components/debug-net/src/NetDebug.cpp`.

* `uint32_t` timestamps are natural numbers reduced modulo `2 ^ 32`; the
  unsigned subtraction of the two guards of `UpdateMetrics` is `sub32`.
* The `int` counters (`m_inPackets`, `m_inBytes`, ...) are integers kept in
  the range of a 32-bit `int`: every sum stored into one is reduced to the
  two's-complement range by `wrapInt32`, which is what the compiled code does
  when a counter overflows.  The variants named `...Exact` drop the
  reduction; they serve the statements made in exact integer arithmetic.
* `m_metrics` is a fixed-size array of `g_netOverlaySampleCount + 1`
  elements: a function on `Fin (n + 1)`, where `n` stands for
  `g_netOverlaySampleCount` (150 in the source).
* `NetPacketMetrics` and `NET_PACKET_SUB_MAX` are declared in `NetLibrary.h`,
  outside `NetDebug.cpp`; the metric is modelled from the specification, with
  the number of sub-components as the parameter `K`.
* `timeGetTime()` is an input: `UpdateMetrics` takes the value it returns.
* The theorems hold for every `n`, in particular for the 150 of the source;
  for in-range timestamps in their natural order `sub32` is the ordinary
  difference (`sub32_of_le`).
-/

namespace NetDebug

/-! ## Constants -/

/-- Milliseconds per sample frame (`g_netOverlaySampleSize`). -/
def g_netOverlaySampleSize : Nat := 200

/-- The value of `g_netOverlaySampleCount` in the source. -/
def g_netOverlaySampleCount : Nat := 150

/-- Number of values of a `uint32_t`. -/
def UINT32_MOD : Nat := 4294967296

/-- Storing a value into a `uint32_t`. -/
def toU32 (x : Nat) : Nat := x % UINT32_MOD

/-- Subtraction of two `uint32_t` values (wraps around modulo `2 ^ 32`). -/
def sub32 (a b : Nat) : Nat := (a % UINT32_MOD + (UINT32_MOD - b % UINT32_MOD)) % UINT32_MOD

/-- The largest value of a 32-bit `int`. -/
def INT32_MAX : Int := 2147483647

/-- The smallest value of a 32-bit `int`. -/
def INT32_MIN : Int := -2147483648

/-- Storing a value into a 32-bit `int`: reduction modulo `2 ^ 32` to the
two's-complement range, so that `INT32_MAX + 1` is stored as `INT32_MIN`. -/
def wrapInt32 (x : Int) : Int := (x + 2147483648) % 4294967296 - 2147483648

/-- The value fits a 32-bit `int`. -/
def inInt32 (x : Int) : Prop := INT32_MIN ≤ x ∧ x ≤ INT32_MAX

instance (x : Int) : Decidable (inInt32 x) :=
  inferInstanceAs (Decidable (INT32_MIN ≤ x ∧ x ≤ INT32_MAX))

/-! ## Packet metrics -/

/-- Modelled from the spec: the class `NetPacketMetrics` of `NetLibrary.h`, a
value holding one non-negative size per sub-component of a fixed enumeration
of `K` sub-components (`NET_PACKET_SUB_MAX`). -/
@[ext]
structure NetPacketMetrics (K : Nat) where
  m_subSizes : Fin K → Nat

namespace NetPacketMetrics

variable {K : Nat}

/-- Modelled from the spec: the default constructor `NetPacketMetrics()`, the
all-zero metric. -/
def zero : NetPacketMetrics K := ⟨fun _ => 0⟩

/-- Modelled from the spec: `operator+` of `NetLibrary.h` (`Combine`), the
elementwise sum of two metrics. -/
def Combine (a b : NetPacketMetrics K) : NetPacketMetrics K :=
  ⟨fun i => a.m_subSizes i + b.m_subSizes i⟩

/-- Modelled from the spec: `GetElementSize`, the size of one
sub-component. -/
def GetElementSize (m : NetPacketMetrics K) (i : Fin K) : Nat := m.m_subSizes i

/-- Modelled from the spec: `GetTotalSize`, the sum of all sub-components. -/
def GetTotalSize (m : NetPacketMetrics K) : Nat := (List.ofFn m.m_subSizes).sum

instance : Add (NetPacketMetrics K) := ⟨Combine⟩

instance : DecidableEq (NetPacketMetrics K) := fun a b =>
  decidable_of_iff (∀ i, a.m_subSizes i = b.m_subSizes i)
    ⟨fun h => NetPacketMetrics.ext (funext h), fun h i => by rw [h]⟩

end NetPacketMetrics

/-! ## The metric sink -/

/-- The data members of `NetOverlayMetricSink`. -/
@[ext]
structure NetOverlayMetricSink (K n : Nat) where
  m_ping : Int
  m_lastInPackets : Int
  m_lastOutPackets : Int
  m_lastInBytes : Int
  m_lastOutBytes : Int
  m_inPackets : Int
  m_outPackets : Int
  m_inBytes : Int
  m_outBytes : Int
  m_metrics : Fin (n + 1) → NetPacketMetrics K
  m_lastUpdatePerSec : Nat
  m_lastUpdatePerSample : Nat

variable {K n : Nat}

/-- Index `g_netOverlaySampleCount` of `m_metrics`: the transient bucket. -/
def openIdx (n : Nat) : Fin (n + 1) := Fin.last n

/-- The constructor: every counter and both timers are zero and the array
holds default-constructed metrics. -/
def NetOverlayMetricSink.init (K n : Nat) : NetOverlayMetricSink K n where
  m_ping := 0
  m_lastInPackets := 0
  m_lastOutPackets := 0
  m_lastInBytes := 0
  m_lastOutBytes := 0
  m_inPackets := 0
  m_outPackets := 0
  m_inBytes := 0
  m_outBytes := 0
  m_metrics := fun _ => NetPacketMetrics.zero
  m_lastUpdatePerSec := 0
  m_lastUpdatePerSample := 0

/-- `OnIncomingPacket`: add the packet to the transient bucket and to the
counters of the current second. -/
def OnIncomingPacket (packetMetrics : NetPacketMetrics K) (s : NetOverlayMetricSink K n) :
    NetOverlayMetricSink K n :=
  { s with
    m_metrics := Function.update s.m_metrics (openIdx n) (s.m_metrics (openIdx n) + packetMetrics)
    m_inPackets := wrapInt32 (s.m_inPackets + 1)
    m_inBytes := wrapInt32 (s.m_inBytes + (packetMetrics.GetTotalSize : Int)) }

/-- `OnOutgoingPacket`: only the counters of the current second change. -/
def OnOutgoingPacket (packetMetrics : NetPacketMetrics K) (s : NetOverlayMetricSink K n) :
    NetOverlayMetricSink K n :=
  { s with
    m_outPackets := wrapInt32 (s.m_outPackets + 1)
    m_outBytes := wrapInt32 (s.m_outBytes + (packetMetrics.GetTotalSize : Int)) }

/-- `OnPingResult`: store the reported round-trip time. -/
def OnPingResult (msec : Int) (s : NetOverlayMetricSink K n) : NetOverlayMetricSink K n :=
  { s with m_ping := msec }

/-- The loop of `std::copy(m_metrics + 1, m_metrics + _countof(m_metrics), m_metrics)`
after `k` iterations: iteration `i` performs `m_metrics[i] = m_metrics[i + 1]`. -/
def stdCopyLoop (m : Fin (n + 1) → NetPacketMetrics K) : Nat → Fin (n + 1) → NetPacketMetrics K
  | 0 => m
  | k + 1 =>
    let m' := stdCopyLoop m k
    if h : k + 1 < n + 1 then
      Function.update m' ⟨k, Nat.lt_of_succ_lt h⟩ (m' ⟨k + 1, h⟩)
    else m'

/-- The body of the first `if` of `UpdateMetrics`: move the metrics back by
one, reset the transient one, update the timer. -/
def rotateBuckets (time : Nat) (s : NetOverlayMetricSink K n) : NetOverlayMetricSink K n :=
  { s with
    m_metrics := Function.update (stdCopyLoop s.m_metrics n) (openIdx n) NetPacketMetrics.zero
    m_lastUpdatePerSample := time }

/-- The body of the second `if` of `UpdateMetrics`: set the 'last' values,
reset the 'current' values, update the timer. -/
def rollSecond (time : Nat) (s : NetOverlayMetricSink K n) : NetOverlayMetricSink K n :=
  { s with
    m_lastInBytes := s.m_inBytes
    m_lastInPackets := s.m_inPackets
    m_lastOutBytes := s.m_outBytes
    m_lastOutPackets := s.m_outPackets
    m_inBytes := 0
    m_inPackets := 0
    m_outBytes := 0
    m_outPackets := 0
    m_lastUpdatePerSec := time }

/-- The guard of the first `if` of `UpdateMetrics`, for the clock value `now`. -/
def sampleDue (now : Nat) (s : NetOverlayMetricSink K n) : Prop :=
  sub32 (toU32 now) s.m_lastUpdatePerSample > g_netOverlaySampleSize

/-- The guard of the second `if` of `UpdateMetrics`, for the clock value `now`. -/
def secondDue (now : Nat) (s : NetOverlayMetricSink K n) : Prop :=
  sub32 (toU32 now) s.m_lastUpdatePerSec > 1000

instance (now : Nat) (s : NetOverlayMetricSink K n) : Decidable (sampleDue now s) :=
  inferInstanceAs (Decidable (sub32 (toU32 now) s.m_lastUpdatePerSample > g_netOverlaySampleSize))

instance (now : Nat) (s : NetOverlayMetricSink K n) : Decidable (secondDue now s) :=
  inferInstanceAs (Decidable (sub32 (toU32 now) s.m_lastUpdatePerSec > 1000))

/-- `UpdateMetrics` (the `Advance` of the specification), where `now` is the
value returned by `timeGetTime()`. -/
def UpdateMetrics (now : Nat) (s : NetOverlayMetricSink K n) : NetOverlayMetricSink K n :=
  let time := toU32 now
  let s1 := if sampleDue now s then rotateBuckets time s else s
  if secondDue now s1 then rollSecond time s1 else s1

/-- The closed buckets as `DrawGraph` reads them: entries `0 .. _countof - 2`,
oldest first, the transient last entry left out. -/
def history (s : NetOverlayMetricSink K n) : List (NetPacketMetrics K) :=
  List.ofFn (fun i : Fin n => s.m_metrics i.castSucc)

/-- The whole array `m_metrics` as a list, index 0 first. -/
def buckets (s : NetOverlayMetricSink K n) : List (NetPacketMetrics K) :=
  List.ofFn s.m_metrics

/-- The net effect of the copy and the reset on the array: every entry takes
the value of its successor and the transient entry is zero. -/
def shiftBuckets (m : Fin (n + 1) → NetPacketMetrics K) : Fin (n + 1) → NetPacketMetrics K :=
  fun i => if h : i.val < n then m ⟨i.val + 1, Nat.succ_lt_succ h⟩ else NetPacketMetrics.zero

/-! ## Sequences of calls -/

/-- One call on the sink. -/
inductive Op (K : Nat) where
  | incoming (packetMetrics : NetPacketMetrics K)
  | outgoing (packetMetrics : NetPacketMetrics K)
  | ping (msec : Int)
  | advance (now : Nat)

/-- Perform one call. -/
def step (s : NetOverlayMetricSink K n) : Op K → NetOverlayMetricSink K n
  | .incoming pm => OnIncomingPacket pm s
  | .outgoing pm => OnOutgoingPacket pm s
  | .ping msec => OnPingResult msec s
  | .advance now => UpdateMetrics now s

/-- Perform a sequence of calls, first to last. -/
def run (s : NetOverlayMetricSink K n) (ops : List (Op K)) : NetOverlayMetricSink K n :=
  ops.foldl step s

/-- Whether a call is `OnOutgoingPacket`. -/
def Op.isOutgoing : Op K → Bool
  | .outgoing _ => true
  | _ => false

/-- Whether a call is `OnIncomingPacket`. -/
def Op.isIncoming : Op K → Bool
  | .incoming _ => true
  | _ => false

/-- Whether the call `op`, made in state `s`, is an `UpdateMetrics` whose first
guard holds, that is, a call that rotates the buckets. -/
def rotatesAt (s : NetOverlayMetricSink K n) : Op K → Bool
  | .advance now => decide (sampleDue now s)
  | _ => false

/-- Number of bucket rotations performed while running `ops` from `s`. -/
def rotations (s : NetOverlayMetricSink K n) : List (Op K) → Nat
  | [] => 0
  | op :: ops => (if rotatesAt s op then 1 else 0) + rotations (step s op) ops

/-- The metrics passed to `OnIncomingPacket` in a sequence of calls, in order. -/
def incomingMetrics : List (Op K) → List (NetPacketMetrics K)
  | [] => []
  | .incoming pm :: ops => pm :: incomingMetrics ops
  | _ :: ops => incomingMetrics ops

/-- A one-component metric of the given size. -/
def metricOfSize (size : Nat) : NetPacketMetrics 1 := ⟨fun _ => size⟩

/-- The scenario of the specification: three closed buckets, one incoming
packet of total size 50 recorded at time 0. -/
def scenarioOpen50 : NetOverlayMetricSink 1 3 :=
  OnIncomingPacket (metricOfSize 50) (NetOverlayMetricSink.init 1 3)

/-- The scenario of the specification: three incoming packets of sizes 10, 20
and 30 recorded at time 0. -/
def scenarioThreePackets : NetOverlayMetricSink 1 3 :=
  run (NetOverlayMetricSink.init 1 3)
    [.incoming (metricOfSize 10), .incoming (metricOfSize 20), .incoming (metricOfSize 30)]

/-- Whether the call `op`, made in state `s`, is an `UpdateMetrics` whose
second guard holds, that is, a call that rolls the second over. -/
def rollsAt (s : NetOverlayMetricSink K n) : Op K → Bool
  | .advance now => decide (secondDue now s)
  | _ => false

/-- The value passed to the last `OnPingResult` of a sequence of calls, or
`start` when there is none. -/
def lastPing (start : Int) : List (Op K) → Int
  | [] => start
  | .ping msec :: ops => lastPing msec ops
  | _ :: ops => lastPing start ops

/-- The first loop of `DrawGraph`: the maximum height, starting from 0 and
running over all `_countof(m_metrics)` entries.  The `float` accumulator holds
the integer totals exactly as long as they are below `2 ^ 24`; here it is a
natural number. -/
def DrawGraph_maxHeight (s : NetOverlayMetricSink K n) : Nat :=
  (List.ofFn s.m_metrics).foldl
    (fun maxHeight metric =>
      if metric.GetTotalSize > maxHeight then metric.GetTotalSize else maxHeight) 0

/-- The maximum of the specification: the largest total size among the closed
buckets that `DrawGraph` draws (0 when there is none). -/
def visibleWindowMax (s : NetOverlayMetricSink K n) : Nat :=
  ((history s).map NetPacketMetrics.GetTotalSize).foldl max 0

/-- The sums that the call `op` stores into the counters of the current second
all fit a 32-bit `int`. -/
def countersFit (s : NetOverlayMetricSink K n) : Op K → Prop
  | .incoming pm =>
    inInt32 (s.m_inPackets + 1) ∧ inInt32 (s.m_inBytes + (pm.GetTotalSize : Int))
  | .outgoing pm =>
    inInt32 (s.m_outPackets + 1) ∧ inInt32 (s.m_outBytes + (pm.GetTotalSize : Int))
  | _ => True

/-- A sink whose four counters of the current second have reached the largest
value of an `int`. -/
def scenarioCountersAtMax : NetOverlayMetricSink 1 3 :=
  { NetOverlayMetricSink.init 1 3 with
    m_inPackets := 2147483647
    m_outPackets := 2147483647
    m_inBytes := 2147483647
    m_outBytes := 2147483647 }

/-- The scenario state after an `UpdateMetrics` at time `2 ^ 32 - 100`, shortly
before the millisecond clock wraps around. -/
def scenarioBeforeWrap : NetOverlayMetricSink 1 3 :=
  UpdateMetrics 4294967196 scenarioOpen50

/-- The elapsed time modulo `2 ^ 32`, as an integer computation. -/
def elapsedMod (now last : Nat) : Int := ((now : Int) - (last : Int)) % 4294967296

/-! ## Basic facts -/

theorem toU32_of_lt {x : Nat} (h : x < UINT32_MOD) : toU32 x = x :=
  Nat.mod_eq_of_lt h

theorem toU32_lt (x : Nat) : toU32 x < UINT32_MOD :=
  Nat.mod_lt _ (by decide)

theorem sub32_self (a : Nat) : sub32 a a = 0 := by
  unfold sub32 UINT32_MOD
  omega

theorem sub32_toU32_self (a : Nat) : sub32 (toU32 a) (toU32 a) = 0 := sub32_self _

/-- A value that fits a 32-bit `int` is stored unchanged. -/
theorem wrapInt32_of_inInt32 {x : Int} (h : inInt32 x) : wrapInt32 x = x := by
  unfold inInt32 INT32_MIN INT32_MAX at h
  unfold wrapInt32
  omega

/-- The stored value always fits. -/
theorem inInt32_wrapInt32 (x : Int) : inInt32 (wrapInt32 x) := by
  unfold inInt32 INT32_MIN INT32_MAX wrapInt32
  omega

/-- For in-range timestamps in their natural order the unsigned difference is
the true difference. -/
theorem sub32_of_le {a b : Nat} (hab : b ≤ a) (ha : a < UINT32_MOD) : sub32 a b = a - b := by
  unfold sub32 UINT32_MOD at *
  omega

theorem stdCopyLoop_apply (m : Fin (n + 1) → NetPacketMetrics K) (k : Nat) (hk : k ≤ n)
    (i : Fin (n + 1)) :
    stdCopyLoop m k i = if h : i.val < k then m ⟨i.val + 1, by omega⟩ else m i := by
  induction k generalizing i with
  | zero => simp [stdCopyLoop]
  | succ k ih =>
    have hk' : k ≤ n := by omega
    have hlt : k + 1 < n + 1 := by omega
    simp only [stdCopyLoop, hlt, dite_true]
    by_cases hi : i = ⟨k, by omega⟩
    · subst hi
      rw [Function.update_same, ih hk']
      simp
    · have hne : i.val ≠ k := fun h => hi (Fin.ext h)
      rw [Function.update_noteq hi, ih hk']
      by_cases h1 : i.val < k
      · have h2 : i.val < k + 1 := by omega
        simp [h1, h2]
      · have h2 : ¬ i.val < k + 1 := by omega
        simp [h1, h2]

theorem rotate_eq_shift (m : Fin (n + 1) → NetPacketMetrics K) :
    Function.update (stdCopyLoop m n) (openIdx n) NetPacketMetrics.zero = shiftBuckets m := by
  funext i
  by_cases hi : i = openIdx n
  · subst hi
    simp [shiftBuckets, openIdx]
  · have hne : i.val ≠ n := fun h => hi (Fin.ext h)
    have hlt : i.val < n := by omega
    rw [Function.update_noteq hi, stdCopyLoop_apply m n le_rfl]
    simp [shiftBuckets, hlt]

theorem rotateBuckets_metrics (time : Nat) (s : NetOverlayMetricSink K n) :
    (rotateBuckets time s).m_metrics = shiftBuckets s.m_metrics :=
  rotate_eq_shift s.m_metrics

theorem shiftBuckets_castSucc (m : Fin (n + 1) → NetPacketMetrics K) (i : Fin n) :
    shiftBuckets m i.castSucc = m i.succ := by
  simp [shiftBuckets, Fin.succ]

theorem shiftBuckets_last (m : Fin (n + 1) → NetPacketMetrics K) :
    shiftBuckets m (Fin.last n) = NetPacketMetrics.zero := by
  simp [shiftBuckets]

theorem secondDue_rotateBuckets (now time : Nat) (s : NetOverlayMetricSink K n) :
    secondDue now (rotateBuckets time s) ↔ secondDue now s := Iff.rfl

theorem sampleDue_rollSecond (now time : Nat) (s : NetOverlayMetricSink K n) :
    sampleDue now (rollSecond time s) ↔ sampleDue now s := Iff.rfl

theorem UpdateMetrics_both {now : Nat} {s : NetOverlayMetricSink K n}
    (h1 : sampleDue now s) (h2 : secondDue now s) :
    UpdateMetrics now s = rollSecond (toU32 now) (rotateBuckets (toU32 now) s) := by
  unfold UpdateMetrics
  simp only [h1, if_true]
  rw [if_pos ((secondDue_rotateBuckets now (toU32 now) s).2 h2)]

theorem UpdateMetrics_rotate_only {now : Nat} {s : NetOverlayMetricSink K n}
    (h1 : sampleDue now s) (h2 : ¬ secondDue now s) :
    UpdateMetrics now s = rotateBuckets (toU32 now) s := by
  unfold UpdateMetrics
  simp only [h1, if_true]
  rw [if_neg (fun h => h2 ((secondDue_rotateBuckets now (toU32 now) s).1 h))]

theorem UpdateMetrics_roll_only {now : Nat} {s : NetOverlayMetricSink K n}
    (h1 : ¬ sampleDue now s) (h2 : secondDue now s) :
    UpdateMetrics now s = rollSecond (toU32 now) s := by
  unfold UpdateMetrics
  simp only [h1, h2, if_true, if_false]

theorem UpdateMetrics_neither {now : Nat} {s : NetOverlayMetricSink K n}
    (h1 : ¬ sampleDue now s) (h2 : ¬ secondDue now s) :
    UpdateMetrics now s = s := by
  unfold UpdateMetrics
  simp only [h1, h2, if_false]

theorem UpdateMetrics_metrics (now : Nat) (s : NetOverlayMetricSink K n) :
    (UpdateMetrics now s).m_metrics =
      if sampleDue now s then shiftBuckets s.m_metrics else s.m_metrics := by
  by_cases h1 : sampleDue now s <;> by_cases h2 : secondDue now s
  · rw [UpdateMetrics_both h1 h2, if_pos h1]; exact rotateBuckets_metrics (toU32 now) s
  · rw [UpdateMetrics_rotate_only h1 h2, if_pos h1]; exact rotateBuckets_metrics (toU32 now) s
  · rw [UpdateMetrics_roll_only h1 h2, if_neg h1]; rfl
  · rw [UpdateMetrics_neither h1 h2, if_neg h1]

theorem UpdateMetrics_lastUpdatePerSample (now : Nat) (s : NetOverlayMetricSink K n) :
    (UpdateMetrics now s).m_lastUpdatePerSample =
      if sampleDue now s then toU32 now else s.m_lastUpdatePerSample := by
  by_cases h1 : sampleDue now s <;> by_cases h2 : secondDue now s
  · rw [UpdateMetrics_both h1 h2, if_pos h1]; rfl
  · rw [UpdateMetrics_rotate_only h1 h2, if_pos h1]; rfl
  · rw [UpdateMetrics_roll_only h1 h2, if_neg h1]; rfl
  · rw [UpdateMetrics_neither h1 h2, if_neg h1]

theorem sub32_toU32 (a b : Nat) : sub32 (toU32 a) b = sub32 a b := by
  unfold sub32 toU32
  rw [Nat.mod_mod]

theorem sampleDue_iff (now : Nat) (s : NetOverlayMetricSink K n) :
    sampleDue now s ↔ sub32 now s.m_lastUpdatePerSample > g_netOverlaySampleSize := by
  unfold sampleDue
  rw [sub32_toU32]

theorem secondDue_iff (now : Nat) (s : NetOverlayMetricSink K n) :
    secondDue now s ↔ sub32 now s.m_lastUpdatePerSec > 1000 := by
  unfold secondDue
  rw [sub32_toU32]

theorem not_sampleDue_self (now : Nat) (s : NetOverlayMetricSink K n)
    (h : s.m_lastUpdatePerSample = toU32 now) : ¬ sampleDue now s := by
  unfold sampleDue
  rw [h, sub32_self]
  decide

theorem not_secondDue_self (now : Nat) (s : NetOverlayMetricSink K n)
    (h : s.m_lastUpdatePerSec = toU32 now) : ¬ secondDue now s := by
  unfold secondDue
  rw [h, sub32_self]
  decide

theorem UpdateMetrics_lastUpdatePerSec (now : Nat) (s : NetOverlayMetricSink K n) :
    (UpdateMetrics now s).m_lastUpdatePerSec =
      if secondDue now s then toU32 now else s.m_lastUpdatePerSec := by
  by_cases h1 : sampleDue now s <;> by_cases h2 : secondDue now s
  · rw [UpdateMetrics_both h1 h2, if_pos h2]; rfl
  · rw [UpdateMetrics_rotate_only h1 h2, if_neg h2]; rfl
  · rw [UpdateMetrics_roll_only h1 h2, if_pos h2]; rfl
  · rw [UpdateMetrics_neither h1 h2, if_neg h2]

theorem UpdateMetrics_ping (now : Nat) (s : NetOverlayMetricSink K n) :
    (UpdateMetrics now s).m_ping = s.m_ping := by
  by_cases h1 : sampleDue now s <;> by_cases h2 : secondDue now s
  · rw [UpdateMetrics_both h1 h2]; rfl
  · rw [UpdateMetrics_rotate_only h1 h2]; rfl
  · rw [UpdateMetrics_roll_only h1 h2]; rfl
  · rw [UpdateMetrics_neither h1 h2]

/-- When the second guard holds, `UpdateMetrics` acts on every field other
than the buckets and their timer as `rollSecond` does. -/
theorem UpdateMetrics_of_secondDue {now : Nat} {s : NetOverlayMetricSink K n}
    (h2 : secondDue now s) :
    UpdateMetrics now s =
      { rollSecond (toU32 now) s with
        m_metrics := (UpdateMetrics now s).m_metrics
        m_lastUpdatePerSample := (UpdateMetrics now s).m_lastUpdatePerSample } := by
  by_cases h1 : sampleDue now s
  · rw [UpdateMetrics_both h1 h2]; rfl
  · rw [UpdateMetrics_roll_only h1 h2]

/-- When the second guard fails, `UpdateMetrics` changes nothing but the
buckets and their timer. -/
theorem UpdateMetrics_of_not_secondDue {now : Nat} {s : NetOverlayMetricSink K n}
    (h2 : ¬ secondDue now s) :
    UpdateMetrics now s =
      { s with
        m_metrics := (UpdateMetrics now s).m_metrics
        m_lastUpdatePerSample := (UpdateMetrics now s).m_lastUpdatePerSample } := by
  by_cases h1 : sampleDue now s
  · rw [UpdateMetrics_rotate_only h1 h2]; rfl
  · rw [UpdateMetrics_neither h1 h2]

/-! ## Facts about sequences of calls -/

theorem run_nil (s : NetOverlayMetricSink K n) : run s [] = s := rfl

theorem run_cons (s : NetOverlayMetricSink K n) (op : Op K) (ops : List (Op K)) :
    run s (op :: ops) = run (step s op) ops := rfl

theorem run_append (s : NetOverlayMetricSink K n) (xs ys : List (Op K)) :
    run s (xs ++ ys) = run (run s xs) ys := by
  unfold run
  rw [List.foldl_append]

theorem rotations_cons (s : NetOverlayMetricSink K n) (op : Op K) (ops : List (Op K)) :
    rotations s (op :: ops) = (if rotatesAt s op then 1 else 0) + rotations (step s op) ops := rfl

theorem rotations_append (s : NetOverlayMetricSink K n) (xs ys : List (Op K)) :
    rotations s (xs ++ ys) = rotations s xs + rotations (run s xs) ys := by
  induction xs generalizing s with
  | nil => simp [rotations, run_nil]
  | cons op xs ih =>
    show (if rotatesAt s op then 1 else 0) + rotations (step s op) (xs ++ ys) =
      ((if rotatesAt s op then 1 else 0) + rotations (step s op) xs) +
        rotations (run (step s op) xs) ys
    rw [ih]
    omega

/-- The guard of the rotation only reads the sample timer. -/
theorem rotatesAt_congr {s t : NetOverlayMetricSink K n}
    (h : s.m_lastUpdatePerSample = t.m_lastUpdatePerSample) (op : Op K) :
    rotatesAt s op = rotatesAt t op := by
  cases op <;> simp [rotatesAt, sampleDue, h]

/-- A rotating call shifts the buckets. -/
theorem step_metrics_of_rotates {s : NetOverlayMetricSink K n} {op : Op K}
    (h : rotatesAt s op = true) : (step s op).m_metrics = shiftBuckets s.m_metrics := by
  cases op with
  | advance now =>
    have h1 : sampleDue now s := by simpa [rotatesAt] using h
    simp only [step, UpdateMetrics_metrics, h1, if_true]
  | _ => simp [rotatesAt] at h

/-- A call that does not rotate leaves every closed bucket alone. -/
theorem step_metrics_of_not_rotates {s : NetOverlayMetricSink K n} {op : Op K}
    (h : rotatesAt s op = false) (i : Fin (n + 1)) (hi : i ≠ Fin.last n) :
    (step s op).m_metrics i = s.m_metrics i := by
  cases op with
  | advance now =>
    have h1 : ¬ sampleDue now s := by simpa [rotatesAt] using h
    simp only [step, UpdateMetrics_metrics, h1, if_false]
  | incoming pm => exact Function.update_noteq hi _ _
  | outgoing pm => rfl
  | ping msec => rfl

/-- A call that neither rotates nor records an incoming packet leaves the
whole array alone. -/
theorem step_metrics_of_quiet {s : NetOverlayMetricSink K n} {op : Op K}
    (h : rotatesAt s op = false) (hin : op.isIncoming = false) :
    (step s op).m_metrics = s.m_metrics := by
  cases op with
  | advance now =>
    have h1 : ¬ sampleDue now s := by simpa [rotatesAt] using h
    simp only [step, UpdateMetrics_metrics, h1, if_false]
  | incoming pm => simp [Op.isIncoming] at hin
  | outgoing pm => rfl
  | ping msec => rfl

/-- The sample timer after a call depends only on the sample timer before. -/
theorem step_lastUpdatePerSample_congr {s t : NetOverlayMetricSink K n}
    (h : s.m_lastUpdatePerSample = t.m_lastUpdatePerSample) (op : Op K) :
    (step s op).m_lastUpdatePerSample = (step t op).m_lastUpdatePerSample := by
  cases op with
  | advance now =>
    simp only [step, UpdateMetrics_lastUpdatePerSample, sampleDue, h]
  | incoming pm => exact h
  | outgoing pm => exact h
  | ping msec => exact h

/-- The number of rotations of a run depends only on the sample timer at its
start. -/
theorem rotations_congr {s t : NetOverlayMetricSink K n}
    (h : s.m_lastUpdatePerSample = t.m_lastUpdatePerSample) (ops : List (Op K)) :
    rotations s ops = rotations t ops := by
  induction ops generalizing s t with
  | nil => rfl
  | cons op ops ih =>
    rw [rotations_cons, rotations_cons, rotatesAt_congr h op,
      ih (step_lastUpdatePerSample_congr h op)]

/-- The buckets after a call depend only on the buckets and the sample timer
before. -/
theorem step_metrics_congr {s t : NetOverlayMetricSink K n}
    (hm : s.m_metrics = t.m_metrics)
    (h : s.m_lastUpdatePerSample = t.m_lastUpdatePerSample) (op : Op K) :
    (step s op).m_metrics = (step t op).m_metrics := by
  cases op with
  | advance now =>
    simp only [step, UpdateMetrics_metrics, sampleDue, h, hm]
  | incoming pm => simp only [step, OnIncomingPacket, hm]
  | outgoing pm => exact hm
  | ping msec => exact hm

theorem run_chart_congr {s t : NetOverlayMetricSink K n} (ops : List (Op K))
    (hm : s.m_metrics = t.m_metrics)
    (h : s.m_lastUpdatePerSample = t.m_lastUpdatePerSample) :
    (run s ops).m_metrics = (run t ops).m_metrics ∧
      (run s ops).m_lastUpdatePerSample = (run t ops).m_lastUpdatePerSample := by
  induction ops generalizing s t with
  | nil => exact ⟨hm, h⟩
  | cons op ops ih =>
    rw [run_cons, run_cons]
    exact ih (step_metrics_congr hm h op) (step_lastUpdatePerSample_congr h op)

/-- Outgoing packets are invisible to the buckets and their timer. -/
theorem run_filter_outgoing (s t : NetOverlayMetricSink K n) (ops : List (Op K))
    (hm : s.m_metrics = t.m_metrics)
    (h : s.m_lastUpdatePerSample = t.m_lastUpdatePerSample) :
    (run s ops).m_metrics = (run t (ops.filter (fun op => !op.isOutgoing))).m_metrics := by
  induction ops generalizing s t with
  | nil => exact hm
  | cons op ops ih =>
    cases op with
    | outgoing pm =>
      simp only [List.filter, Op.isOutgoing, Bool.not_true]
      rw [run_cons]
      exact ih _ _ hm h
    | incoming pm =>
      simp only [List.filter, Op.isOutgoing, Bool.not_false]
      rw [run_cons, run_cons]
      exact ih _ _ (step_metrics_congr hm h _) (step_lastUpdatePerSample_congr h _)
    | ping msec =>
      simp only [List.filter, Op.isOutgoing, Bool.not_false]
      rw [run_cons, run_cons]
      exact ih _ _ (step_metrics_congr hm h _) (step_lastUpdatePerSample_congr h _)
    | advance now =>
      simp only [List.filter, Op.isOutgoing, Bool.not_false]
      rw [run_cons, run_cons]
      exact ih _ _ (step_metrics_congr hm h _) (step_lastUpdatePerSample_congr h _)

theorem shiftBuckets_of_succ (m : Fin (n + 1) → NetPacketMetrics K) (i j : Fin (n + 1))
    (h : i.val + 1 = j.val) : shiftBuckets m i = m j := by
  have hi : i.val < n := by omega
  have hj : j = ⟨i.val + 1, Nat.succ_lt_succ hi⟩ := Fin.ext h.symm
  simp [shiftBuckets, hi, hj]

theorem shiftBuckets_open (m : Fin (n + 1) → NetPacketMetrics K) (i : Fin (n + 1))
    (h : i.val = n) : shiftBuckets m i = NetPacketMetrics.zero := by
  simp [shiftBuckets, h]

/-- Closed buckets age by one slot per rotation and are otherwise untouched:
after `r` rotations the closed bucket that was at index `i` is at index
`i - r`. -/
theorem run_metrics_aged (s : NetOverlayMetricSink K n) (ops : List (Op K))
    (i j : Fin (n + 1)) (hi : i.val < n) (hj : j.val + rotations s ops = i.val) :
    (run s ops).m_metrics j = s.m_metrics i := by
  induction ops generalizing s i with
  | nil =>
    have : j = i := Fin.ext (by simpa [rotations] using hj)
    rw [this, run_nil]
  | cons op ops ih =>
    rw [rotations_cons] at hj
    rw [run_cons]
    cases hr : rotatesAt s op with
    | true =>
      rw [hr] at hj
      simp only [if_true] at hj
      have hpos : 0 < i.val := by omega
      rw [ih (step s op) ⟨i.val - 1, by omega⟩ (by simp; omega) (by simp; omega),
        step_metrics_of_rotates hr]
      exact shiftBuckets_of_succ _ _ _ (by simp; omega)
    | false =>
      rw [hr] at hj
      simp only [Bool.false_eq_true, if_false, Nat.zero_add] at hj
      rw [ih (step s op) i hi hj]
      exact step_metrics_of_not_rotates hr i (fun h => by rw [h] at hi; simp at hi)

/-- Two runs of the same calls from states with the same sample timer: the
buckets on which they agree grow by one per rotation, from the transient end. -/
theorem run_agree (s t : NetOverlayMetricSink K n) (ops : List (Op K)) (k : Nat)
    (ht : s.m_lastUpdatePerSample = t.m_lastUpdatePerSample)
    (hag : ∀ i : Fin (n + 1), n + 1 ≤ i.val + k → s.m_metrics i = t.m_metrics i) :
    ∀ i : Fin (n + 1), n + 1 ≤ i.val + (k + rotations s ops) →
      (run s ops).m_metrics i = (run t ops).m_metrics i := by
  induction ops generalizing s t k with
  | nil => simpa [rotations, run_nil] using hag
  | cons op ops ih =>
    intro i hi
    rw [rotations_cons] at hi
    rw [run_cons, run_cons]
    refine ih (step s op) (step t op) (k + if rotatesAt s op then 1 else 0)
      (step_lastUpdatePerSample_congr ht op) ?_ i (by omega)
    intro j hj
    cases hr : rotatesAt s op with
    | true =>
      have hr' : rotatesAt t op = true := by rw [← rotatesAt_congr ht op]; exact hr
      rw [step_metrics_of_rotates hr, step_metrics_of_rotates hr']
      rw [hr] at hj
      simp only [if_true] at hj
      by_cases hjn : j.val = n
      · rw [shiftBuckets_open _ _ hjn, shiftBuckets_open _ _ hjn]
      · have hlt : j.val + 1 < n + 1 := by omega
        rw [shiftBuckets_of_succ _ j ⟨j.val + 1, hlt⟩ rfl,
          shiftBuckets_of_succ _ j ⟨j.val + 1, hlt⟩ rfl]
        exact hag _ (by simp; omega)
    | false =>
      rw [hr] at hj
      simp only [Bool.false_eq_true, if_false, Nat.add_zero] at hj
      have hr' : rotatesAt t op = false := by rw [← rotatesAt_congr ht op]; exact hr
      by_cases hjn : j = Fin.last n
      · cases op with
        | incoming pm =>
          subst hjn
          simp only [step, OnIncomingPacket, openIdx, Function.update_same]
          rw [hag _ hj]
        | outgoing pm => exact hag _ hj
        | ping msec => exact hag _ hj
        | advance now =>
          rw [step_metrics_of_quiet hr rfl, step_metrics_of_quiet hr' rfl]
          exact hag _ hj
      · rw [step_metrics_of_not_rotates hr j hjn, step_metrics_of_not_rotates hr' j hjn]
        exact hag _ hj

/-- Without incoming packets the zero buckets grow by one per rotation, from
the transient end. -/
theorem run_zero (s : NetOverlayMetricSink K n) (ops : List (Op K)) (k : Nat)
    (hno : ∀ op ∈ ops, Op.isIncoming op = false)
    (hz : ∀ i : Fin (n + 1), n + 1 ≤ i.val + k → s.m_metrics i = NetPacketMetrics.zero) :
    ∀ i : Fin (n + 1), n + 1 ≤ i.val + (k + rotations s ops) →
      (run s ops).m_metrics i = NetPacketMetrics.zero := by
  induction ops generalizing s k with
  | nil => simpa [rotations, run_nil] using hz
  | cons op ops ih =>
    intro i hi
    rw [rotations_cons] at hi
    rw [run_cons]
    refine ih (step s op) (k + if rotatesAt s op then 1 else 0)
      (fun o ho => hno o (List.mem_cons_of_mem _ ho)) ?_ i (by omega)
    intro j hj
    cases hr : rotatesAt s op with
    | true =>
      rw [step_metrics_of_rotates hr]
      rw [hr] at hj
      simp only [if_true] at hj
      by_cases hjn : j.val = n
      · exact shiftBuckets_open _ _ hjn
      · have hlt : j.val + 1 < n + 1 := by omega
        rw [shiftBuckets_of_succ _ j ⟨j.val + 1, hlt⟩ rfl]
        exact hz _ (by simp; omega)
    | false =>
      rw [hr] at hj
      simp only [Bool.false_eq_true, if_false, Nat.add_zero] at hj
      rw [step_metrics_of_quiet hr (hno op (List.mem_cons_self _ _))]
      exact hz _ hj

/-- Calls that neither rotate nor record an incoming packet leave the array
alone. -/
theorem run_quiet (s : NetOverlayMetricSink K n) (ops : List (Op K))
    (hrot : rotations s ops = 0) (hno : ∀ op ∈ ops, Op.isIncoming op = false) :
    (run s ops).m_metrics = s.m_metrics := by
  induction ops generalizing s with
  | nil => rfl
  | cons op ops ih =>
    rw [rotations_cons] at hrot
    have hr : rotatesAt s op = false := by
      cases h : rotatesAt s op with
      | true => rw [h] at hrot; simp at hrot
      | false => rfl
    rw [run_cons, ih (step s op) (by omega) (fun o ho => hno o (List.mem_cons_of_mem _ ho))]
    exact step_metrics_of_quiet hr (hno op (List.mem_cons_self _ _))

/-! ## Totals -/

theorem GetTotalSize_zero : (NetPacketMetrics.zero : NetPacketMetrics K).GetTotalSize = 0 := by
  simp [NetPacketMetrics.GetTotalSize, NetPacketMetrics.zero, List.sum_ofFn]

theorem GetTotalSize_add (a b : NetPacketMetrics K) :
    (a + b).GetTotalSize = a.GetTotalSize + b.GetTotalSize := by
  show (NetPacketMetrics.Combine a b).GetTotalSize = _
  simp [NetPacketMetrics.GetTotalSize, NetPacketMetrics.Combine, List.sum_ofFn,
    Finset.sum_add_distrib]

/-- Between rotations the transient bucket accumulates exactly the incoming
packets. -/
theorem run_open_total (s : NetOverlayMetricSink K n) (ops : List (Op K))
    (hrot : rotations s ops = 0) :
    ((run s ops).m_metrics (Fin.last n)).GetTotalSize =
      (s.m_metrics (Fin.last n)).GetTotalSize +
        ((incomingMetrics ops).map NetPacketMetrics.GetTotalSize).sum := by
  induction ops generalizing s with
  | nil => simp [run_nil, incomingMetrics]
  | cons op ops ih =>
    rw [rotations_cons] at hrot
    have hr : rotatesAt s op = false := by
      cases h : rotatesAt s op with
      | true => rw [h] at hrot; simp at hrot
      | false => rfl
    rw [run_cons, ih (step s op) (by omega)]
    cases op with
    | incoming pm =>
      simp only [step, OnIncomingPacket, openIdx, Function.update_same, incomingMetrics,
        List.map_cons, List.sum_cons, GetTotalSize_add]
      omega
    | outgoing pm => rfl
    | ping msec => rfl
    | advance now =>
      rw [step_metrics_of_quiet hr rfl]
      rfl

/-! ## The view of the renderer -/

theorem buckets_length (s : NetOverlayMetricSink K n) : (buckets s).length = n + 1 := by
  unfold buckets
  exact List.length_ofFn _

/-- The history is the array without the transient last element. -/
theorem history_eq_dropLast (s : NetOverlayMetricSink K n) :
    history s = (buckets s).dropLast := by
  unfold history buckets
  rw [List.ofFn_succ' s.m_metrics, List.concat_eq_append, List.dropLast_concat]

/-! ## The claims -/

/-- C1 (bucket rotation). For every state `s` and 32-bit timestamp `now` whose
unsigned difference to `m_lastUpdatePerSample` exceeds `g_netOverlaySampleSize`
(200), `UpdateMetrics` moves every bucket exactly one slot towards index 0
(`b'[i] = b[i + 1]` for `i < n`), leaves the zero metric in the transient slot
`n` and stores `now` in `m_lastUpdatePerSample`; nothing is assumed about the
size of the elapsed time or about the second guard. -/
theorem C1_bucket_rotation (s : NetOverlayMetricSink K n) (now : Nat)
    (hnow : now < UINT32_MOD)
    (hdue : sub32 now s.m_lastUpdatePerSample > g_netOverlaySampleSize) :
    (∀ i : Fin n, (UpdateMetrics now s).m_metrics i.castSucc = s.m_metrics i.succ) ∧
    (UpdateMetrics now s).m_metrics (Fin.last n) = NetPacketMetrics.zero ∧
    (UpdateMetrics now s).m_lastUpdatePerSample = now := by
  have h : sampleDue now s := (sampleDue_iff now s).2 hdue
  rw [UpdateMetrics_metrics, UpdateMetrics_lastUpdatePerSample]
  simp only [h, if_true]
  exact ⟨shiftBuckets_castSucc _, shiftBuckets_last _, toU32_of_lt hnow⟩

/-- Witness of C1: three closed buckets, a transient bucket of total 50 and
`UpdateMetrics` at time 250 give the history totals `[0, 0, 50]` and an empty
transient bucket. -/
theorem C1_bucket_rotation_witness :
    (250 < UINT32_MOD ∧
      sub32 250 scenarioOpen50.m_lastUpdatePerSample > g_netOverlaySampleSize) ∧
    ((∀ i : Fin 3, (UpdateMetrics 250 scenarioOpen50).m_metrics i.castSucc =
        scenarioOpen50.m_metrics i.succ) ∧
      (UpdateMetrics 250 scenarioOpen50).m_metrics (Fin.last 3) = NetPacketMetrics.zero ∧
      (UpdateMetrics 250 scenarioOpen50).m_lastUpdatePerSample = 250) ∧
    (scenarioOpen50.m_metrics (Fin.last 3)).GetTotalSize = 50 ∧
    (history (UpdateMetrics 250 scenarioOpen50)).map NetPacketMetrics.GetTotalSize =
      [0, 0, 50] :=
  ⟨⟨by decide, by decide⟩, C1_bucket_rotation scenarioOpen50 250 (by decide) (by decide),
    by decide, by decide⟩

/-- C2 (second rollover). For every state `s` and 32-bit timestamp `now` whose
unsigned difference to `m_lastUpdatePerSec` exceeds 1000, `UpdateMetrics`
copies the four counters of the current second into the 'last' fields, resets
the four counters to 0, stores `now` in `m_lastUpdatePerSec` and leaves
`m_ping` alone. -/
theorem C2_second_rollover (s : NetOverlayMetricSink K n) (now : Nat)
    (hnow : now < UINT32_MOD) (hdue : sub32 now s.m_lastUpdatePerSec > 1000) :
    ((UpdateMetrics now s).m_lastInPackets = s.m_inPackets ∧
      (UpdateMetrics now s).m_lastOutPackets = s.m_outPackets ∧
      (UpdateMetrics now s).m_lastInBytes = s.m_inBytes ∧
      (UpdateMetrics now s).m_lastOutBytes = s.m_outBytes) ∧
    ((UpdateMetrics now s).m_inPackets = 0 ∧ (UpdateMetrics now s).m_outPackets = 0 ∧
      (UpdateMetrics now s).m_inBytes = 0 ∧ (UpdateMetrics now s).m_outBytes = 0) ∧
    (UpdateMetrics now s).m_lastUpdatePerSec = now ∧
    (UpdateMetrics now s).m_ping = s.m_ping := by
  have h2 : secondDue now s := (secondDue_iff now s).2 hdue
  rw [UpdateMetrics_of_secondDue h2]
  exact ⟨⟨rfl, rfl, rfl, rfl⟩, ⟨rfl, rfl, rfl, rfl⟩, toU32_of_lt hnow, rfl⟩

/-- Witness of C2: after incoming packets of sizes 10, 20 and 30 the snapshot
of the incoming bytes is still 0 after `UpdateMetrics` at time 500; a further
`UpdateMetrics` at time 1100 makes it 60 and resets the current counter. -/
theorem C2_second_rollover_witness :
    (UpdateMetrics 500 scenarioThreePackets).m_lastInBytes = 0 ∧
    (UpdateMetrics 500 scenarioThreePackets).m_inBytes = 60 ∧
    (1100 < UINT32_MOD ∧
      sub32 1100 (UpdateMetrics 500 scenarioThreePackets).m_lastUpdatePerSec > 1000) ∧
    (UpdateMetrics 1100 (UpdateMetrics 500 scenarioThreePackets)).m_lastInBytes = 60 ∧
    (UpdateMetrics 1100 (UpdateMetrics 500 scenarioThreePackets)).m_inBytes = 0 ∧
    (UpdateMetrics 1100 (UpdateMetrics 500 scenarioThreePackets)).m_lastUpdatePerSec = 1100 :=
  have h := C2_second_rollover (UpdateMetrics 500 scenarioThreePackets) 1100
    (by decide) (by decide)
  ⟨by decide, by decide, ⟨by decide, by decide⟩, h.1.2.2.1.trans (by decide), h.2.1.2.2.1,
    h.2.2.1⟩

/-- C3 as stated fails where a counter is at the largest `int`: one more
incoming packet of size 1 leaves `m_inPackets` and `m_inBytes` at
`-2147483648`, not at the old value plus 1. -/
theorem C3_on_incoming_packet_counterexample :
    (scenarioCountersAtMax.m_inPackets = 2147483647 ∧
      scenarioCountersAtMax.m_inBytes = 2147483647 ∧
      (metricOfSize 1).GetTotalSize = 1) ∧
    ((OnIncomingPacket (metricOfSize 1) scenarioCountersAtMax).m_inPackets = -2147483648 ∧
      (OnIncomingPacket (metricOfSize 1) scenarioCountersAtMax).m_inBytes = -2147483648) ∧
    ¬ ((OnIncomingPacket (metricOfSize 1) scenarioCountersAtMax).m_inPackets =
        scenarioCountersAtMax.m_inPackets + 1) ∧
    ¬ ((OnIncomingPacket (metricOfSize 1) scenarioCountersAtMax).m_inBytes =
        scenarioCountersAtMax.m_inBytes + ((metricOfSize 1).GetTotalSize : Int)) :=
  ⟨⟨by decide, by decide, by decide⟩, ⟨by decide, by decide⟩, by decide, by decide⟩

/-- C3 amended (`OnIncomingPacket`). For every state `s` and metric `m` the
transient bucket becomes `Combine` of its old value and `m`; `m_inPackets`
grows by 1 when `s.m_inPackets + 1` fits a 32-bit `int`, and `m_inBytes` grows
by the total size of `m` when that sum fits a 32-bit `int`; every closed
bucket, the outgoing counters, the ping, the 'last' fields and both timers are
unchanged. -/
theorem C3_on_incoming_packet (s : NetOverlayMetricSink K n) (m : NetPacketMetrics K) :
    (OnIncomingPacket m s).m_metrics (Fin.last n) =
      NetPacketMetrics.Combine (s.m_metrics (Fin.last n)) m ∧
    (inInt32 (s.m_inPackets + 1) → (OnIncomingPacket m s).m_inPackets = s.m_inPackets + 1) ∧
    (inInt32 (s.m_inBytes + (m.GetTotalSize : Int)) →
      (OnIncomingPacket m s).m_inBytes = s.m_inBytes + (m.GetTotalSize : Int)) ∧
    (∀ i : Fin n, (OnIncomingPacket m s).m_metrics i.castSucc = s.m_metrics i.castSucc) ∧
    (OnIncomingPacket m s).m_outPackets = s.m_outPackets ∧
    (OnIncomingPacket m s).m_outBytes = s.m_outBytes ∧
    (OnIncomingPacket m s).m_ping = s.m_ping ∧
    ((OnIncomingPacket m s).m_lastInPackets = s.m_lastInPackets ∧
      (OnIncomingPacket m s).m_lastOutPackets = s.m_lastOutPackets ∧
      (OnIncomingPacket m s).m_lastInBytes = s.m_lastInBytes ∧
      (OnIncomingPacket m s).m_lastOutBytes = s.m_lastOutBytes) ∧
    (OnIncomingPacket m s).m_lastUpdatePerSec = s.m_lastUpdatePerSec ∧
    (OnIncomingPacket m s).m_lastUpdatePerSample = s.m_lastUpdatePerSample := by
  refine ⟨?_, fun h => wrapInt32_of_inInt32 h, fun h => wrapInt32_of_inInt32 h, ?_, rfl, rfl,
    rfl, ⟨rfl, rfl, rfl, rfl⟩, rfl, rfl⟩
  · simp only [OnIncomingPacket, openIdx, Function.update_same]
    rfl
  · intro i
    exact Function.update_noteq (Fin.castSucc_lt_last i).ne _ _

/-- Witness of C3 amended: after packets of sizes 10, 20 and 30 a packet of size
40 takes the counters from 3 and 60 to 4 and 100. -/
theorem C3_on_incoming_packet_witness :
    (inInt32 (scenarioThreePackets.m_inPackets + 1) ∧
      inInt32 (scenarioThreePackets.m_inBytes + ((metricOfSize 40).GetTotalSize : Int))) ∧
    (OnIncomingPacket (metricOfSize 40) scenarioThreePackets).m_inPackets =
      scenarioThreePackets.m_inPackets + 1 ∧
    (OnIncomingPacket (metricOfSize 40) scenarioThreePackets).m_inBytes =
      scenarioThreePackets.m_inBytes + ((metricOfSize 40).GetTotalSize : Int) ∧
    (OnIncomingPacket (metricOfSize 40) scenarioThreePackets).m_inPackets = 4 ∧
    (OnIncomingPacket (metricOfSize 40) scenarioThreePackets).m_inBytes = 100 :=
  have h := C3_on_incoming_packet scenarioThreePackets (metricOfSize 40)
  ⟨⟨by decide, by decide⟩, h.2.1 (by decide), h.2.2.1 (by decide), by decide, by decide⟩

/-- C4 (asymmetry). For every state and every finite sequence of calls, running
the sequence and running it with all `OnOutgoingPacket` calls deleted end with
the same array of buckets, transient and closed, hence with the same history
for the chart. -/
theorem C4_outgoing_never_affects_history (s : NetOverlayMetricSink K n) (ops : List (Op K)) :
    (run s ops).m_metrics = (run s (ops.filter (fun op => !op.isOutgoing))).m_metrics ∧
    buckets (run s ops) = buckets (run s (ops.filter (fun op => !op.isOutgoing))) ∧
    history (run s ops) = history (run s (ops.filter (fun op => !op.isOutgoing))) := by
  have h := run_filter_outgoing s s ops rfl rfl
  refine ⟨h, ?_, ?_⟩
  · unfold buckets
    rw [h]
  · unfold history
    rw [h]

/-- C5 (FIFO eviction). After calls containing exactly `n + 1` rotations the
array of buckets does not depend on the buckets of the start state: replacing
them by any other array `b` gives the same result, and without incoming packets
all `n + 1` buckets are zero. After exactly `n` rotations, the first of them
fired by `UpdateMetrics now` after calls `pre` without rotation, the bucket that
was open at the start is at index 0: with its contents at the time it was
closed, which are those of the start state when `pre` records no incoming
packet. -/
theorem C5_fifo_eviction :
    (∀ (s : NetOverlayMetricSink K n) (b : Fin (n + 1) → NetPacketMetrics K)
        (ops : List (Op K)), rotations s ops = n + 1 →
        (run { s with m_metrics := b } ops).m_metrics = (run s ops).m_metrics) ∧
    (∀ (s : NetOverlayMetricSink K n) (ops : List (Op K)), rotations s ops = n + 1 →
        (∀ op ∈ ops, Op.isIncoming op = false) →
        ∀ i, (run s ops).m_metrics i = NetPacketMetrics.zero) ∧
    (∀ (s : NetOverlayMetricSink K n) (pre : List (Op K)) (now : Nat) (post : List (Op K)),
        rotations s pre = 0 → sampleDue now (run s pre) →
        rotations s (pre ++ Op.advance now :: post) = n →
        (run s (pre ++ Op.advance now :: post)).m_metrics 0 =
            (run s pre).m_metrics (Fin.last n) ∧
          ((∀ op ∈ pre, Op.isIncoming op = false) →
            (run s (pre ++ Op.advance now :: post)).m_metrics 0 =
              s.m_metrics (Fin.last n))) := by
  refine ⟨?_, ?_, ?_⟩
  · intro s b ops hrot
    funext i
    have h := run_agree { s with m_metrics := b } s ops 0 rfl
      (fun j hj => absurd hj (by have := j.isLt; omega))
    have hr : rotations { s with m_metrics := b } ops = rotations s ops :=
      @rotations_congr K n { s with m_metrics := b } s rfl ops
    exact h i (by rw [hr, hrot]; omega)
  · intro s ops hrot hno i
    exact run_zero s ops 0 hno (fun j hj => absurd hj (by have := j.isLt; omega)) i
      (by rw [hrot]; omega)
  · intro s pre now post hpre hdue hrot
    have hstep : rotatesAt (run s pre) (Op.advance now) = true := by
      simpa [rotatesAt] using hdue
    rw [rotations_append, hpre, rotations_cons, hstep] at hrot
    simp only [if_true, Nat.zero_add] at hrot
    have hn : 0 < n := by omega
    have key : (run s (pre ++ Op.advance now :: post)).m_metrics 0 =
        (run s pre).m_metrics (Fin.last n) := by
      rw [run_append, run_cons,
        run_metrics_aged (step (run s pre) (Op.advance now)) post ⟨n - 1, by omega⟩ 0
          (by simp; omega) (by simp; omega),
        step_metrics_of_rotates hstep]
      exact shiftBuckets_of_succ _ _ _ (by simp; omega)
    exact ⟨key, fun hno => by rw [key, run_quiet s pre hpre hno]⟩

/-- Witness of C5: from the scenario state (three closed buckets, transient
bucket of total 50) four rotations erase every trace of the start buckets and
three rotations leave the start's transient bucket at index 0. -/
theorem C5_fifo_eviction_witness :
    rotations scenarioOpen50
        [Op.advance 250, Op.advance 500, Op.advance 750, Op.advance 1000] = 3 + 1 ∧
    (run { scenarioOpen50 with m_metrics := fun _ => metricOfSize 7 }
        [Op.advance 250, Op.advance 500, Op.advance 750, Op.advance 1000]).m_metrics =
      (run scenarioOpen50
        [Op.advance 250, Op.advance 500, Op.advance 750, Op.advance 1000]).m_metrics ∧
    (∀ i, (run scenarioOpen50
        [Op.advance 250, Op.advance 500, Op.advance 750, Op.advance 1000]).m_metrics i =
      NetPacketMetrics.zero) ∧
    (run scenarioOpen50
        ([Op.outgoing (metricOfSize 9)] ++ Op.advance 250 ::
          [Op.advance 500, Op.advance 750])).m_metrics 0 =
      scenarioOpen50.m_metrics (Fin.last 3) :=
  ⟨by decide,
    C5_fifo_eviction.1 scenarioOpen50 (fun _ => metricOfSize 7)
      [Op.advance 250, Op.advance 500, Op.advance 750, Op.advance 1000] (by decide),
    C5_fifo_eviction.2.1 scenarioOpen50
      [Op.advance 250, Op.advance 500, Op.advance 750, Op.advance 1000] (by decide) (by decide),
    (C5_fifo_eviction.2.2 scenarioOpen50 [Op.outgoing (metricOfSize 9)] 250
      [Op.advance 500, Op.advance 750] (by decide) (by decide) (by decide)).2 (by decide)⟩

/-- C6 (closed buckets are immutable until evicted). If `UpdateMetrics now`
rotates in state `s` and is followed by any sequence of calls containing
exactly `j` further rotations, `j ≤ n - 1`, then the bucket at index
`n - 1 - j` of the result is the bucket that was open in `s`. -/
theorem C6_closed_bucket_ages (s : NetOverlayMetricSink K n) (now : Nat) (ops : List (Op K))
    (j : Nat) (hdue : sampleDue now s) (hrot : rotations (UpdateMetrics now s) ops = j)
    (hj : j < n) :
    (run (UpdateMetrics now s) ops).m_metrics ⟨n - 1 - j, by omega⟩ =
      s.m_metrics (Fin.last n) := by
  rw [run_metrics_aged (UpdateMetrics now s) ops ⟨n - 1, by omega⟩ ⟨n - 1 - j, by omega⟩
    (by simp; omega) (by simp; omega), UpdateMetrics_metrics, if_pos hdue]
  exact shiftBuckets_of_succ _ _ _ (by simp; omega)

/-- Witness of C6: a bucket of total 50 closed by `UpdateMetrics` at 250, then a
packet of total 30 and `UpdateMetrics` at 460: the bucket of 50 is at index 1
and the history totals are `[0, 50, 30]`. -/
theorem C6_closed_bucket_ages_witness :
    (sampleDue 250 scenarioOpen50 ∧
      rotations (UpdateMetrics 250 scenarioOpen50)
        [Op.incoming (metricOfSize 30), Op.advance 460] = 1) ∧
    (run (UpdateMetrics 250 scenarioOpen50)
        [Op.incoming (metricOfSize 30), Op.advance 460]).m_metrics ⟨3 - 1 - 1, by omega⟩ =
      scenarioOpen50.m_metrics (Fin.last 3) ∧
    (history (run (UpdateMetrics 250 scenarioOpen50)
        [Op.incoming (metricOfSize 30), Op.advance 460])).map NetPacketMetrics.GetTotalSize =
      [0, 50, 30] :=
  ⟨⟨by decide, by decide⟩,
    C6_closed_bucket_ages scenarioOpen50 250 [Op.incoming (metricOfSize 30), Op.advance 460] 1
      (by decide) (by decide) (by decide),
    by decide⟩

/-- C7 (idempotence of `UpdateMetrics`). For every state and timestamp, a
second call with the same timestamp changes nothing: it neither rotates nor
rolls the second over. -/
theorem C7_update_metrics_idempotent (s : NetOverlayMetricSink K n) (now : Nat) :
    UpdateMetrics now (UpdateMetrics now s) = UpdateMetrics now s ∧
    ¬ sampleDue now (UpdateMetrics now s) ∧ ¬ secondDue now (UpdateMetrics now s) := by
  have h1 : ¬ sampleDue now (UpdateMetrics now s) := by
    by_cases c : sampleDue now s
    · exact not_sampleDue_self now _ (by rw [UpdateMetrics_lastUpdatePerSample, if_pos c])
    · intro h
      apply c
      unfold sampleDue at h ⊢
      rwa [UpdateMetrics_lastUpdatePerSample, if_neg c] at h
  have h2 : ¬ secondDue now (UpdateMetrics now s) := by
    by_cases c : secondDue now s
    · exact not_secondDue_self now _ (by rw [UpdateMetrics_lastUpdatePerSec, if_pos c])
    · intro h
      apply c
      unfold secondDue at h ⊢
      rwa [UpdateMetrics_lastUpdatePerSec, if_neg c] at h
  exact ⟨UpdateMetrics_neither h1 h2, h1, h2⟩

/-- C8 (length invariant). In every state reached from the freshly constructed
sink by any sequence of calls the array of buckets has exactly `n + 1` elements
and the history read by the renderer, which is the array without its last
element, oldest first, has exactly `n` entries. -/
theorem C8_length_invariant (ops : List (Op K)) :
    (buckets (run (NetOverlayMetricSink.init K n) ops)).length = n + 1 ∧
    (history (run (NetOverlayMetricSink.init K n) ops)).length = n ∧
    history (run (NetOverlayMetricSink.init K n) ops) =
      (buckets (run (NetOverlayMetricSink.init K n) ops)).dropLast := by
  refine ⟨?_, ?_, ?_⟩
  · exact buckets_length _
  · rw [history_eq_dropLast, List.length_dropLast, buckets_length]
    rfl
  · exact history_eq_dropLast _

/-- C9 (additivity). From a state whose transient bucket is the zero metric,
after any calls without rotation the total size of the transient bucket is the
sum of the total sizes of the metrics recorded by `OnIncomingPacket`. -/
theorem C9_additivity (s : NetOverlayMetricSink K n) (ops : List (Op K))
    (hopen : s.m_metrics (Fin.last n) = NetPacketMetrics.zero)
    (hrot : rotations s ops = 0) :
    ((run s ops).m_metrics (Fin.last n)).GetTotalSize =
      ((incomingMetrics ops).map NetPacketMetrics.GetTotalSize).sum := by
  rw [run_open_total s ops hrot, hopen, GetTotalSize_zero, Nat.zero_add]

/-- Witness of C9: packets of sizes 10, 20 and 30 interleaved with an outgoing
packet, a ping and a non-rotating `UpdateMetrics` add up to 60. -/
theorem C9_additivity_witness :
    ((NetOverlayMetricSink.init 1 3).m_metrics (Fin.last 3) = NetPacketMetrics.zero ∧
      rotations (NetOverlayMetricSink.init 1 3)
        [Op.incoming (metricOfSize 10), Op.outgoing (metricOfSize 5),
          Op.incoming (metricOfSize 20), Op.ping 7, Op.advance 100,
          Op.incoming (metricOfSize 30)] = 0) ∧
    ((run (NetOverlayMetricSink.init 1 3)
        [Op.incoming (metricOfSize 10), Op.outgoing (metricOfSize 5),
          Op.incoming (metricOfSize 20), Op.ping 7, Op.advance 100,
          Op.incoming (metricOfSize 30)]).m_metrics (Fin.last 3)).GetTotalSize = 60 :=
  ⟨⟨by decide, by decide⟩,
    (C9_additivity (NetOverlayMetricSink.init 1 3)
      [Op.incoming (metricOfSize 10), Op.outgoing (metricOfSize 5),
        Op.incoming (metricOfSize 20), Op.ping 7, Op.advance 100,
        Op.incoming (metricOfSize 30)] (by decide) (by decide)).trans (by decide)⟩

/-- C10 (strict thresholds). If the unsigned difference of `now` and
`m_lastUpdatePerSample` is at most `g_netOverlaySampleSize` (200),
`UpdateMetrics now` leaves the buckets and `m_lastUpdatePerSample` unchanged;
if the unsigned difference of `now` and `m_lastUpdatePerSec` is at most 1000,
it leaves the counters of the current second, the 'last' fields and
`m_lastUpdatePerSec` unchanged; when both hold it is the identity. -/
theorem C10_strict_thresholds (s : NetOverlayMetricSink K n) (now : Nat) :
    (sub32 now s.m_lastUpdatePerSample ≤ g_netOverlaySampleSize →
      (UpdateMetrics now s).m_metrics = s.m_metrics ∧
      (UpdateMetrics now s).m_lastUpdatePerSample = s.m_lastUpdatePerSample) ∧
    (sub32 now s.m_lastUpdatePerSec ≤ 1000 →
      ((UpdateMetrics now s).m_inPackets = s.m_inPackets ∧
        (UpdateMetrics now s).m_outPackets = s.m_outPackets ∧
        (UpdateMetrics now s).m_inBytes = s.m_inBytes ∧
        (UpdateMetrics now s).m_outBytes = s.m_outBytes) ∧
      ((UpdateMetrics now s).m_lastInPackets = s.m_lastInPackets ∧
        (UpdateMetrics now s).m_lastOutPackets = s.m_lastOutPackets ∧
        (UpdateMetrics now s).m_lastInBytes = s.m_lastInBytes ∧
        (UpdateMetrics now s).m_lastOutBytes = s.m_lastOutBytes) ∧
      (UpdateMetrics now s).m_lastUpdatePerSec = s.m_lastUpdatePerSec) ∧
    (sub32 now s.m_lastUpdatePerSample ≤ g_netOverlaySampleSize →
      sub32 now s.m_lastUpdatePerSec ≤ 1000 → UpdateMetrics now s = s) := by
  refine ⟨?_, ?_, ?_⟩
  · intro h
    have h1 : ¬ sampleDue now s := fun c => absurd ((sampleDue_iff now s).1 c) (by omega)
    rw [UpdateMetrics_metrics, UpdateMetrics_lastUpdatePerSample, if_neg h1, if_neg h1]
    exact ⟨rfl, rfl⟩
  · intro h
    have h2 : ¬ secondDue now s := fun c => absurd ((secondDue_iff now s).1 c) (by omega)
    rw [UpdateMetrics_of_not_secondDue h2]
    exact ⟨⟨rfl, rfl, rfl, rfl⟩, ⟨rfl, rfl, rfl, rfl⟩, rfl⟩
  · intro h h'
    have h1 : ¬ sampleDue now s := fun c => absurd ((sampleDue_iff now s).1 c) (by omega)
    have h2 : ¬ secondDue now s := fun c => absurd ((secondDue_iff now s).1 c) (by omega)
    exact UpdateMetrics_neither h1 h2

/-- Witness of C10: with both timers at 0, `UpdateMetrics` at exactly 200 is
the identity, and at exactly 1000 it rotates the buckets but leaves the
counters and the snapshot alone. -/
theorem C10_strict_thresholds_witness :
    (sub32 200 scenarioThreePackets.m_lastUpdatePerSample = g_netOverlaySampleSize ∧
      sub32 1000 scenarioThreePackets.m_lastUpdatePerSec = 1000) ∧
    ((UpdateMetrics 200 scenarioThreePackets).m_metrics = scenarioThreePackets.m_metrics ∧
      (UpdateMetrics 200 scenarioThreePackets).m_lastUpdatePerSample =
        scenarioThreePackets.m_lastUpdatePerSample) ∧
    ((UpdateMetrics 1000 scenarioThreePackets).m_inBytes = scenarioThreePackets.m_inBytes ∧
      (UpdateMetrics 1000 scenarioThreePackets).m_lastInBytes =
        scenarioThreePackets.m_lastInBytes ∧
      (UpdateMetrics 1000 scenarioThreePackets).m_lastUpdatePerSec =
        scenarioThreePackets.m_lastUpdatePerSec) ∧
    UpdateMetrics 200 scenarioThreePackets = scenarioThreePackets :=
  have a := (C10_strict_thresholds scenarioThreePackets 200).1 (by decide)
  have b := (C10_strict_thresholds scenarioThreePackets 1000).2.1 (by decide)
  have c := (C10_strict_thresholds scenarioThreePackets 200).2.2 (by decide) (by decide)
  ⟨⟨by decide, by decide⟩, a, ⟨b.1.2.2.1, b.2.1.2.2.1, b.2.2⟩, c⟩

/-! ## Counters, ping and padding -/

theorem rollsAt_advance (s : NetOverlayMetricSink K n) (now : Nat) :
    rollsAt s (Op.advance now) = decide (secondDue now s) := rfl

/-- The ping after a run is the last reported one. -/
theorem run_ping (s : NetOverlayMetricSink K n) (ops : List (Op K)) :
    (run s ops).m_ping = lastPing s.m_ping ops := by
  induction ops generalizing s with
  | nil => rfl
  | cons op ops ih =>
    rw [run_cons, ih]
    cases op with
    | incoming pm => rfl
    | outgoing pm => rfl
    | ping msec => rfl
    | advance now =>
      show lastPing (UpdateMetrics now s).m_ping ops = lastPing s.m_ping ops
      rw [UpdateMetrics_ping]

/-- C11 as stated fails where a counter is at the largest `int`: one more
incoming packet, which is not a rollover, takes `m_inPackets` and `m_inBytes`
from `2147483647` down to `-2147483648`. -/
theorem C11_counters_between_rollovers_counterexample :
    rollsAt scenarioCountersAtMax (Op.incoming (metricOfSize 1)) = false ∧
    (scenarioCountersAtMax.m_inPackets = 2147483647 ∧
      (step scenarioCountersAtMax (Op.incoming (metricOfSize 1))).m_inPackets = -2147483648) ∧
    ¬ (scenarioCountersAtMax.m_inPackets ≤
        (step scenarioCountersAtMax (Op.incoming (metricOfSize 1))).m_inPackets) ∧
    ¬ (scenarioCountersAtMax.m_inBytes ≤
        (step scenarioCountersAtMax (Op.incoming (metricOfSize 1))).m_inBytes) :=
  ⟨by decide, ⟨by decide, by decide⟩, by decide, by decide⟩

/-- C11 amended (current-second counters). A call that is not an
`UpdateMetrics` firing the second rollover, and whose sums fit a 32-bit `int`,
leaves each of `m_inPackets`, `m_outPackets`, `m_inBytes`, `m_outBytes` at
least as large as before; an `UpdateMetrics` that fires the second rollover
leaves all four equal to 0. -/
theorem C11_counters_between_rollovers (s : NetOverlayMetricSink K n) (op : Op K) :
    (rollsAt s op = false → countersFit s op →
      s.m_inPackets ≤ (step s op).m_inPackets ∧ s.m_outPackets ≤ (step s op).m_outPackets ∧
      s.m_inBytes ≤ (step s op).m_inBytes ∧ s.m_outBytes ≤ (step s op).m_outBytes) ∧
    (rollsAt s op = true →
      (step s op).m_inPackets = 0 ∧ (step s op).m_outPackets = 0 ∧
      (step s op).m_inBytes = 0 ∧ (step s op).m_outBytes = 0) := by
  cases op with
  | incoming pm =>
    refine ⟨fun _ hfit => ⟨?_, le_rfl, ?_, le_rfl⟩, fun h => by simp [rollsAt] at h⟩
    · show s.m_inPackets ≤ wrapInt32 (s.m_inPackets + 1)
      rw [wrapInt32_of_inInt32 hfit.1]
      omega
    · show s.m_inBytes ≤ wrapInt32 (s.m_inBytes + (pm.GetTotalSize : Int))
      rw [wrapInt32_of_inInt32 hfit.2]
      omega
  | outgoing pm =>
    refine ⟨fun _ hfit => ⟨le_rfl, ?_, le_rfl, ?_⟩, fun h => by simp [rollsAt] at h⟩
    · show s.m_outPackets ≤ wrapInt32 (s.m_outPackets + 1)
      rw [wrapInt32_of_inInt32 hfit.1]
      omega
    · show s.m_outBytes ≤ wrapInt32 (s.m_outBytes + (pm.GetTotalSize : Int))
      rw [wrapInt32_of_inInt32 hfit.2]
      omega
  | ping msec =>
    exact ⟨fun _ _ => ⟨le_rfl, le_rfl, le_rfl, le_rfl⟩, fun h => by simp [rollsAt] at h⟩
  | advance now =>
    constructor
    · intro h _
      have h2 : ¬ secondDue now s := by simpa [rollsAt] using h
      show _ ≤ (UpdateMetrics now s).m_inPackets ∧ _ ≤ (UpdateMetrics now s).m_outPackets ∧
        _ ≤ (UpdateMetrics now s).m_inBytes ∧ _ ≤ (UpdateMetrics now s).m_outBytes
      rw [UpdateMetrics_of_not_secondDue h2]
      exact ⟨le_rfl, le_rfl, le_rfl, le_rfl⟩
    · intro h
      have h2 : secondDue now s := by simpa [rollsAt] using h
      show (UpdateMetrics now s).m_inPackets = 0 ∧ (UpdateMetrics now s).m_outPackets = 0 ∧
        (UpdateMetrics now s).m_inBytes = 0 ∧ (UpdateMetrics now s).m_outBytes = 0
      rw [UpdateMetrics_of_secondDue h2]
      exact ⟨rfl, rfl, rfl, rfl⟩

/-- Witness of C11 amended: after three incoming packets a fourth one, whose
sums fit, raises the counters, and `UpdateMetrics` at time 1100 resets them. -/
theorem C11_counters_between_rollovers_witness :
    (rollsAt scenarioThreePackets (Op.incoming (metricOfSize 40)) = false ∧
      inInt32 (scenarioThreePackets.m_inPackets + 1) ∧
      inInt32 (scenarioThreePackets.m_inBytes + ((metricOfSize 40).GetTotalSize : Int)) ∧
      rollsAt scenarioThreePackets (Op.advance 1100) = true) ∧
    (scenarioThreePackets.m_inPackets ≤
        (step scenarioThreePackets (Op.incoming (metricOfSize 40))).m_inPackets ∧
      scenarioThreePackets.m_outPackets ≤
        (step scenarioThreePackets (Op.incoming (metricOfSize 40))).m_outPackets ∧
      scenarioThreePackets.m_inBytes ≤
        (step scenarioThreePackets (Op.incoming (metricOfSize 40))).m_inBytes ∧
      scenarioThreePackets.m_outBytes ≤
        (step scenarioThreePackets (Op.incoming (metricOfSize 40))).m_outBytes) ∧
    ((step scenarioThreePackets (Op.advance 1100)).m_inPackets = 0 ∧
      (step scenarioThreePackets (Op.advance 1100)).m_outPackets = 0 ∧
      (step scenarioThreePackets (Op.advance 1100)).m_inBytes = 0 ∧
      (step scenarioThreePackets (Op.advance 1100)).m_outBytes = 0) ∧
    scenarioThreePackets.m_inBytes = 60 :=
  ⟨⟨by decide, by decide, by decide, by decide⟩,
    (C11_counters_between_rollovers scenarioThreePackets
      (Op.incoming (metricOfSize 40))).1 (by decide) ⟨by decide, by decide⟩,
    (C11_counters_between_rollovers scenarioThreePackets (Op.advance 1100)).2 (by decide),
    by decide⟩

/-- C12 as stated fails where a counter is at the largest `int`: one more
outgoing packet of size 1 leaves `m_outPackets` and `m_outBytes` at
`-2147483648`, not at the old value plus 1. -/
theorem C12_on_outgoing_packet_counterexample :
    (scenarioCountersAtMax.m_outPackets = 2147483647 ∧
      scenarioCountersAtMax.m_outBytes = 2147483647 ∧
      (metricOfSize 1).GetTotalSize = 1) ∧
    ((OnOutgoingPacket (metricOfSize 1) scenarioCountersAtMax).m_outPackets = -2147483648 ∧
      (OnOutgoingPacket (metricOfSize 1) scenarioCountersAtMax).m_outBytes = -2147483648) ∧
    ¬ ((OnOutgoingPacket (metricOfSize 1) scenarioCountersAtMax).m_outPackets =
        scenarioCountersAtMax.m_outPackets + 1) ∧
    ¬ ((OnOutgoingPacket (metricOfSize 1) scenarioCountersAtMax).m_outBytes =
        scenarioCountersAtMax.m_outBytes + ((metricOfSize 1).GetTotalSize : Int)) :=
  ⟨⟨by decide, by decide, by decide⟩, ⟨by decide, by decide⟩, by decide, by decide⟩

/-- C12 amended (`OnOutgoingPacket`). For every state `s` and metric `m`,
`m_outPackets` grows by 1 when `s.m_outPackets + 1` fits a 32-bit `int`, and
`m_outBytes` grows by the total size of `m` when that sum fits a 32-bit `int`;
all `n + 1` buckets, the incoming counters, the ping, the 'last' fields and
both timers are unchanged. -/
theorem C12_on_outgoing_packet (s : NetOverlayMetricSink K n) (m : NetPacketMetrics K) :
    (inInt32 (s.m_outPackets + 1) → (OnOutgoingPacket m s).m_outPackets = s.m_outPackets + 1) ∧
    (inInt32 (s.m_outBytes + (m.GetTotalSize : Int)) →
      (OnOutgoingPacket m s).m_outBytes = s.m_outBytes + (m.GetTotalSize : Int)) ∧
    (∀ i : Fin (n + 1), (OnOutgoingPacket m s).m_metrics i = s.m_metrics i) ∧
    (OnOutgoingPacket m s).m_inPackets = s.m_inPackets ∧
    (OnOutgoingPacket m s).m_inBytes = s.m_inBytes ∧
    (OnOutgoingPacket m s).m_ping = s.m_ping ∧
    ((OnOutgoingPacket m s).m_lastInPackets = s.m_lastInPackets ∧
      (OnOutgoingPacket m s).m_lastOutPackets = s.m_lastOutPackets ∧
      (OnOutgoingPacket m s).m_lastInBytes = s.m_lastInBytes ∧
      (OnOutgoingPacket m s).m_lastOutBytes = s.m_lastOutBytes) ∧
    (OnOutgoingPacket m s).m_lastUpdatePerSec = s.m_lastUpdatePerSec ∧
    (OnOutgoingPacket m s).m_lastUpdatePerSample = s.m_lastUpdatePerSample :=
  ⟨fun h => wrapInt32_of_inInt32 h, fun h => wrapInt32_of_inInt32 h, fun _ => rfl, rfl, rfl,
    rfl, ⟨rfl, rfl, rfl, rfl⟩, rfl, rfl⟩

/-- Witness of C12 amended: on the scenario state, whose outgoing counters are
0, an outgoing packet of size 40 gives 1 packet and 40 bytes. -/
theorem C12_on_outgoing_packet_witness :
    (inInt32 (scenarioThreePackets.m_outPackets + 1) ∧
      inInt32 (scenarioThreePackets.m_outBytes + ((metricOfSize 40).GetTotalSize : Int))) ∧
    (OnOutgoingPacket (metricOfSize 40) scenarioThreePackets).m_outPackets =
      scenarioThreePackets.m_outPackets + 1 ∧
    (OnOutgoingPacket (metricOfSize 40) scenarioThreePackets).m_outBytes =
      scenarioThreePackets.m_outBytes + ((metricOfSize 40).GetTotalSize : Int) ∧
    (OnOutgoingPacket (metricOfSize 40) scenarioThreePackets).m_outPackets = 1 ∧
    (OnOutgoingPacket (metricOfSize 40) scenarioThreePackets).m_outBytes = 40 :=
  have h := C12_on_outgoing_packet scenarioThreePackets (metricOfSize 40)
  ⟨⟨by decide, by decide⟩, h.1 (by decide), h.2.1 (by decide), by decide, by decide⟩

/-- C13 (`OnPingResult`). For every state `s` and integer `msec`, negative
ones included, the ping becomes `msec` and every other field is unchanged; no
other call changes the ping, so after any sequence of calls the ping is the
value of the last `OnPingResult`. -/
theorem C13_on_ping_result (s : NetOverlayMetricSink K n) (msec : Int) :
    ((OnPingResult msec s).m_ping = msec ∧
      (OnPingResult msec s).m_metrics = s.m_metrics ∧
      ((OnPingResult msec s).m_inPackets = s.m_inPackets ∧
        (OnPingResult msec s).m_outPackets = s.m_outPackets ∧
        (OnPingResult msec s).m_inBytes = s.m_inBytes ∧
        (OnPingResult msec s).m_outBytes = s.m_outBytes) ∧
      ((OnPingResult msec s).m_lastInPackets = s.m_lastInPackets ∧
        (OnPingResult msec s).m_lastOutPackets = s.m_lastOutPackets ∧
        (OnPingResult msec s).m_lastInBytes = s.m_lastInBytes ∧
        (OnPingResult msec s).m_lastOutBytes = s.m_lastOutBytes) ∧
      (OnPingResult msec s).m_lastUpdatePerSec = s.m_lastUpdatePerSec ∧
      (OnPingResult msec s).m_lastUpdatePerSample = s.m_lastUpdatePerSample) ∧
    (∀ pm : NetPacketMetrics K, (OnIncomingPacket pm s).m_ping = s.m_ping) ∧
    (∀ pm : NetPacketMetrics K, (OnOutgoingPacket pm s).m_ping = s.m_ping) ∧
    (∀ now : Nat, (UpdateMetrics now s).m_ping = s.m_ping) ∧
    (∀ ops : List (Op K), (run s ops).m_ping = lastPing s.m_ping ops) :=
  ⟨⟨rfl, rfl, ⟨rfl, rfl, rfl, rfl⟩, ⟨rfl, rfl, rfl, rfl⟩, rfl, rfl⟩,
    fun _ => rfl, fun _ => rfl, fun now => UpdateMetrics_ping now s, fun ops => run_ping s ops⟩

theorem history_length (s : NetOverlayMetricSink K n) : (history s).length = n := by
  unfold history
  exact List.length_ofFn _

theorem history_getElem (s : NetOverlayMetricSink K n) (i : Nat) (hi : i < (history s).length) :
    (history s)[i] = s.m_metrics ⟨i, by rw [history_length] at hi; omega⟩ := by
  unfold history
  simp [List.getElem_ofFn]

/-- C14 (zero padding before the window fills). From the freshly constructed
sink, after any sequence of calls containing exactly `k` rotations, `k ≤ n`,
the oldest `n - k` history entries (indices `0 .. n - k - 1`) are the zero
metric, of total size 0. -/
theorem C14_zero_padding (ops : List (Op K)) (k : Nat)
    (hrot : rotations (NetOverlayMetricSink.init K n) ops = k) (hk : k ≤ n) :
    (∀ i : Fin (n + 1), i.val + k < n →
      (run (NetOverlayMetricSink.init K n) ops).m_metrics i = NetPacketMetrics.zero ∧
      ((run (NetOverlayMetricSink.init K n) ops).m_metrics i).GetTotalSize = 0) ∧
    (history (run (NetOverlayMetricSink.init K n) ops)).take (n - k) =
      List.replicate (n - k) NetPacketMetrics.zero := by
  have key : ∀ i : Fin (n + 1), i.val + k < n →
      (run (NetOverlayMetricSink.init K n) ops).m_metrics i = NetPacketMetrics.zero := by
    intro i hi
    rw [run_metrics_aged (NetOverlayMetricSink.init K n) ops ⟨i.val + k, by omega⟩ i
      (by simpa using hi) (by simp [hrot])]
    rfl
  refine ⟨fun i hi => ⟨key i hi, by rw [key i hi, GetTotalSize_zero]⟩, ?_⟩
  apply List.ext_getElem
  · rw [List.length_take, history_length, List.length_replicate]
    omega
  · intro j h1 h2
    rw [List.length_replicate] at h2
    rw [List.getElem_take, history_getElem, List.getElem_replicate]
    exact key _ (by simpa using (by omega : j + k < n))

/-- Witness of C14: with three closed buckets, after the two rotations of the
scenario (packets of 50 and 30) the oldest history entry is still zero. -/
theorem C14_zero_padding_witness :
    (rotations (NetOverlayMetricSink.init 1 3)
        [Op.incoming (metricOfSize 50), Op.advance 250, Op.incoming (metricOfSize 30),
          Op.advance 460] = 2 ∧ 2 ≤ 3) ∧
    ((∀ i : Fin (3 + 1), i.val + 2 < 3 →
        (run (NetOverlayMetricSink.init 1 3)
          [Op.incoming (metricOfSize 50), Op.advance 250, Op.incoming (metricOfSize 30),
            Op.advance 460]).m_metrics i = NetPacketMetrics.zero ∧
        ((run (NetOverlayMetricSink.init 1 3)
          [Op.incoming (metricOfSize 50), Op.advance 250, Op.incoming (metricOfSize 30),
            Op.advance 460]).m_metrics i).GetTotalSize = 0) ∧
      (history (run (NetOverlayMetricSink.init 1 3)
          [Op.incoming (metricOfSize 50), Op.advance 250, Op.incoming (metricOfSize 30),
            Op.advance 460])).take (3 - 2) =
        List.replicate (3 - 2) NetPacketMetrics.zero) ∧
    (history (run (NetOverlayMetricSink.init 1 3)
        [Op.incoming (metricOfSize 50), Op.advance 250, Op.incoming (metricOfSize 30),
          Op.advance 460])).map NetPacketMetrics.GetTotalSize = [0, 50, 30] :=
  ⟨⟨by decide, by decide⟩,
    C14_zero_padding
      [Op.incoming (metricOfSize 50), Op.advance 250, Op.incoming (metricOfSize 30),
        Op.advance 460] 2 (by decide) (by decide),
    by decide⟩

/-- C15 (algebra of the metrics). `Combine`, which is the `+` that
`OnIncomingPacket` uses on the transient bucket, is commutative and
associative, and the default-constructed metric `zero`, which the rotation
puts in the transient slot, is its identity on both sides. -/
theorem C15_combine_algebra (a b c : NetPacketMetrics K) :
    NetPacketMetrics.Combine a b = NetPacketMetrics.Combine b a ∧
    NetPacketMetrics.Combine (NetPacketMetrics.Combine a b) c =
      NetPacketMetrics.Combine a (NetPacketMetrics.Combine b c) ∧
    NetPacketMetrics.Combine a NetPacketMetrics.zero = a ∧
    NetPacketMetrics.Combine NetPacketMetrics.zero a = a ∧
    a + b = NetPacketMetrics.Combine a b := by
  refine ⟨?_, ?_, ?_, ?_, rfl⟩
  · apply NetPacketMetrics.ext
    funext i
    exact Nat.add_comm _ _
  · apply NetPacketMetrics.ext
    funext i
    exact Nat.add_assoc _ _ _
  · apply NetPacketMetrics.ext
    funext i
    exact Nat.add_zero _
  · apply NetPacketMetrics.ext
    funext i
    exact Nat.zero_add _

/-! ## The scale of the chart -/

theorem foldl_maxHeight (l : List (NetPacketMetrics K)) (a : Nat) :
    l.foldl (fun maxHeight metric =>
        if metric.GetTotalSize > maxHeight then metric.GetTotalSize else maxHeight) a =
      (l.map NetPacketMetrics.GetTotalSize).foldl max a := by
  induction l generalizing a with
  | nil => rfl
  | cons m l ih =>
    simp only [List.foldl_cons, List.map_cons]
    rw [ih]
    congr 1
    by_cases h : m.GetTotalSize > a
    · rw [if_pos h]; omega
    · rw [if_neg h]; omega

theorem buckets_eq_history_append (s : NetOverlayMetricSink K n) :
    buckets s = history s ++ [s.m_metrics (Fin.last n)] := by
  unfold history buckets
  rw [List.ofFn_succ' s.m_metrics, List.concat_eq_append]

/-- The maximum computed by `DrawGraph` covers the transient bucket too. -/
theorem DrawGraph_maxHeight_eq (s : NetOverlayMetricSink K n) :
    DrawGraph_maxHeight s =
      max (visibleWindowMax s) (s.m_metrics (Fin.last n)).GetTotalSize := by
  have h := buckets_eq_history_append s
  unfold buckets at h
  unfold DrawGraph_maxHeight visibleWindowMax
  rw [foldl_maxHeight, h, List.map_append, List.foldl_append]
  rfl

/-- C16 (chart scale), evaluation of the code. The maximum against which
`DrawGraph` scales the columns is taken over all `n + 1` entries of
`m_metrics`: it is the larger of the maximum over the `n` drawn buckets and the
total of the transient bucket. With three empty closed buckets and a transient
bucket of total 50 it is 50, while the maximum over the drawn buckets is 0. -/
theorem C16_chart_scale_counts_transient (s : NetOverlayMetricSink K n) :
    DrawGraph_maxHeight s =
      max (visibleWindowMax s) (s.m_metrics (Fin.last n)).GetTotalSize ∧
    DrawGraph_maxHeight scenarioOpen50 = 50 ∧
    visibleWindowMax scenarioOpen50 = 0 ∧
    DrawGraph_maxHeight scenarioOpen50 ≠ visibleWindowMax scenarioOpen50 :=
  ⟨DrawGraph_maxHeight_eq s, by decide, by decide, by decide⟩

/-! ## Wrap-around of the clock -/

/-- The unsigned difference of the code is the integer difference modulo
`2 ^ 32`. -/
theorem sub32_eq_elapsedMod (now last : Nat) : (sub32 now last : Int) = elapsedMod now last := by
  unfold sub32 elapsedMod UINT32_MOD
  omega

theorem sampleDue_iff_elapsedMod (now : Nat) (s : NetOverlayMetricSink K n) :
    sampleDue now s ↔ 200 < elapsedMod now s.m_lastUpdatePerSample := by
  rw [sampleDue_iff, ← sub32_eq_elapsedMod]
  unfold g_netOverlaySampleSize
  omega

theorem secondDue_iff_elapsedMod (now : Nat) (s : NetOverlayMetricSink K n) :
    secondDue now s ↔ 1000 < elapsedMod now s.m_lastUpdatePerSec := by
  rw [secondDue_iff, ← sub32_eq_elapsedMod]
  omega

/-- C17 (wrap-around of the timestamps). For 32-bit timestamps,
`UpdateMetrics now` takes the rotation branch exactly when the elapsed time
modulo `2 ^ 32` since `m_lastUpdatePerSample` exceeds 200 and the rollover
branch exactly when the elapsed time modulo `2 ^ 32` since `m_lastUpdatePerSec`
exceeds 1000. Hence a true elapsed time `d` with `200 < d < 2 ^ 32` rotates
even when the clock wrapped in between, and a timestamp earlier than the stored
one fires the rotation unless it is earlier by at least `2 ^ 32 - 200`, the
rollover unless it is earlier by at least `2 ^ 32 - 1000`. -/
theorem C17_timestamp_wraparound (s : NetOverlayMetricSink K n) (now : Nat)
    (hnow : now < UINT32_MOD) (hsample : s.m_lastUpdatePerSample < UINT32_MOD)
    (hsec : s.m_lastUpdatePerSec < UINT32_MOD) :
    UpdateMetrics now s =
      (if 1000 < elapsedMod now s.m_lastUpdatePerSec then rollSecond now else id)
        ((if 200 < elapsedMod now s.m_lastUpdatePerSample then rotateBuckets now else id) s) ∧
    ((sampleDue now s ↔ 200 < elapsedMod now s.m_lastUpdatePerSample) ∧
      (secondDue now s ↔ 1000 < elapsedMod now s.m_lastUpdatePerSec)) ∧
    (∀ d : Nat, 200 < d → d < UINT32_MOD →
      now = (s.m_lastUpdatePerSample + d) % UINT32_MOD → sampleDue now s) ∧
    (now < s.m_lastUpdatePerSample →
      (sampleDue now s ↔ s.m_lastUpdatePerSample - now < UINT32_MOD - 200)) ∧
    (now < s.m_lastUpdatePerSec →
      (secondDue now s ↔ s.m_lastUpdatePerSec - now < UINT32_MOD - 1000)) := by
  refine ⟨?_, ⟨sampleDue_iff_elapsedMod now s, secondDue_iff_elapsedMod now s⟩, ?_, ?_, ?_⟩
  · by_cases h1 : sampleDue now s <;> by_cases h2 : secondDue now s
    · rw [UpdateMetrics_both h1 h2, if_pos ((sampleDue_iff_elapsedMod now s).1 h1),
        if_pos ((secondDue_iff_elapsedMod now s).1 h2), toU32_of_lt hnow]
    · rw [UpdateMetrics_rotate_only h1 h2, if_pos ((sampleDue_iff_elapsedMod now s).1 h1),
        if_neg (fun h => h2 ((secondDue_iff_elapsedMod now s).2 h)), toU32_of_lt hnow]
      rfl
    · rw [UpdateMetrics_roll_only h1 h2,
        if_neg (fun h => h1 ((sampleDue_iff_elapsedMod now s).2 h)),
        if_pos ((secondDue_iff_elapsedMod now s).1 h2), toU32_of_lt hnow]
      rfl
    · rw [UpdateMetrics_neither h1 h2,
        if_neg (fun h => h1 ((sampleDue_iff_elapsedMod now s).2 h)),
        if_neg (fun h => h2 ((secondDue_iff_elapsedMod now s).2 h))]
      rfl
  · intro d hd hdM hnowd
    rw [sampleDue_iff]
    unfold sub32 g_netOverlaySampleSize UINT32_MOD at *
    omega
  · intro hlt
    rw [sampleDue_iff]
    unfold sub32 g_netOverlaySampleSize UINT32_MOD at *
    omega
  · intro hlt
    rw [secondDue_iff]
    unfold sub32 UINT32_MOD at *
    omega

/-- Witness of C17: with both timers at `2 ^ 32 - 100`, the wrapped clock value
150 (true elapsed time 250) fires the rotation but not the rollover, and the
earlier clock value `2 ^ 32 - 296` fires both. -/
theorem C17_timestamp_wraparound_witness :
    (150 < UINT32_MOD ∧ 4294967000 < UINT32_MOD ∧
      scenarioBeforeWrap.m_lastUpdatePerSample = 4294967196 ∧
      scenarioBeforeWrap.m_lastUpdatePerSec = 4294967196) ∧
    sampleDue 150 scenarioBeforeWrap ∧
    ¬ secondDue 150 scenarioBeforeWrap ∧
    (sampleDue 4294967000 scenarioBeforeWrap ↔
      scenarioBeforeWrap.m_lastUpdatePerSample - 4294967000 < UINT32_MOD - 200) ∧
    (secondDue 4294967000 scenarioBeforeWrap ↔
      scenarioBeforeWrap.m_lastUpdatePerSec - 4294967000 < UINT32_MOD - 1000) ∧
    sampleDue 4294967000 scenarioBeforeWrap ∧ secondDue 4294967000 scenarioBeforeWrap :=
  have a := C17_timestamp_wraparound scenarioBeforeWrap 150 (by decide) (by decide) (by decide)
  have b := C17_timestamp_wraparound scenarioBeforeWrap 4294967000 (by decide) (by decide)
    (by decide)
  ⟨⟨by decide, by decide, by decide, by decide⟩,
    a.2.2.1 250 (by decide) (by decide) (by decide), by decide,
    b.2.2.2.1 (by decide), b.2.2.2.2 (by decide), by decide, by decide⟩

/-! ## Conservation across second rollovers -/

end NetDebug
